import Mathlib

/-!
Verification of the minimal WebSocket implementation.

Byte sequences are modelled as lists of natural numbers; every byte the C++
code produces is below 256, and machine-integer wraparound is made explicit
with a modulus where the C++ source performs 32-bit or 64-bit arithmetic.

The definitions below are shallow embeddings of:
  - BuildWSFrame, ParseWSFrame (src/src/websocket_server.cc, core header part)
  - ComputeSHA1Hash, EncodeBase64, ExtractHTTPHeaderValue (util header part)
  - the chat-dispatch portion of the server main loop
  - the handshake accept-key computations of server and client
-/

set_option maxRecDepth 4000

/-- The WebSocket opcodes of the core header. -/
inductive WSOpcode where
  | CONTINUATION
  | TEXT
  | BINARY
  | CLOSE
  | PING
  | PONG
deriving DecidableEq

/-- Numeric value of each opcode, as in the C++ enum. -/
def WSOpcode.toNat : WSOpcode → Nat
  | .CONTINUATION => 0x0
  | .TEXT => 0x1
  | .BINARY => 0x2
  | .CLOSE => 0x8
  | .PING => 0x9
  | .PONG => 0xA

/-- Embedding of BuildWSFrame: byte 0 is FIN (0x80) or-ed with the opcode;
lengths below 126 go directly into byte 1; lengths up to 0xFFFF use the
marker 126 followed by two big-endian length bytes; larger lengths fall
through (the C++ appends no length field at all in that case). -/
def BuildWSFrame (message : List Nat) (opcode : WSOpcode) : List Nat :=
  let b0 := 0x80 ||| opcode.toNat
  let len := message.length
  let header :=
    if len < 126 then [b0, len]
    else if len ≤ 0xFFFF then [b0, 126, (len >>> 8) &&& 0xFF, len &&& 0xFF]
    else [b0]
  header ++ message

/-- Embedding of the payload-reading tail of ParseWSFrame: after the header,
the C++ reads (when masked) four mask-key bytes at position pos and then
payload bytes buffer[pos+4+i] xor maskKey[i mod 4]; unmasked it reads
buffer[pos+i] directly. Out-of-bounds declared lengths yield the empty
result. -/
def wsReadPayload (buffer : List Nat) (pos payloadLen : Nat) (mask : Bool) :
    List Nat :=
  if mask then
    if buffer.length < pos + 4 + payloadLen then []
    else
      let maskKey := (buffer.drop pos).take 4
      let raw := buffer.drop (pos + 4)
      (List.range payloadLen).map
        (fun i => (raw.getD i 0) ^^^ (maskKey.getD (i % 4) 0))
  else
    if buffer.length < pos + payloadLen then []
    else
      let raw := buffer.drop pos
      (List.range payloadLen).map (fun i => raw.getD i 0)

/-- Embedding of ParseWSFrame. Byte 0 (FIN and opcode) is never read; byte 1
carries the mask flag in its high bit and the 7-bit length code in the low
bits; length code 126 takes a 16-bit big-endian extension; length code 127
is unsupported and parses as the empty result. -/
def ParseWSFrame (buffer : List Nat) : List Nat :=
  if buffer.length < 2 then []
  else
    let byte2 := buffer.getD 1 0
    let mask : Bool := byte2 &&& 0x80 != 0
    let payloadLen0 := byte2 &&& 0x7F
    if payloadLen0 = 126 then
      if buffer.length < 4 then []
      else
        let payloadLen := ((buffer.getD 2 0) <<< 8) ||| (buffer.getD 3 0)
        wsReadPayload buffer 4 payloadLen mask
    else if payloadLen0 = 127 then []
    else wsReadPayload buffer 2 payloadLen0 mask

/-- The mask flag ParseWSFrame reads from byte 1. -/
def wsMaskFlag (buffer : List Nat) : Bool := (buffer.getD 1 0) &&& 0x80 != 0

/-- The 7-bit length code ParseWSFrame reads from byte 1. -/
def wsLenCode (buffer : List Nat) : Nat := (buffer.getD 1 0) &&& 0x7F

/-- The position right after the length fields, as ParseWSFrame computes it. -/
def wsHeaderPos (buffer : List Nat) : Nat :=
  if wsLenCode buffer = 126 then 4 else 2

/-- The payload length ParseWSFrame derives from the header. -/
def wsDeclaredLen (buffer : List Nat) : Nat :=
  if wsLenCode buffer = 126 then ((buffer.getD 2 0) <<< 8) ||| (buffer.getD 3 0)
  else wsLenCode buffer

/-- The payload of a masked frame as described by the claims: each payload
byte xor-ed with the mask key byte at index i mod 4. -/
def maskBytes (P K : List Nat) : List Nat :=
  (List.range P.length).map (fun i => (P.getD i 0) ^^^ (K.getD (i % 4) 0))

/-- A well-formed masked wire frame carrying payload P under mask key K:
FIN TEXT first byte, mask bit set in byte 1, the usual length encoding,
then the four key bytes, then the masked payload. -/
def maskedFrame (P K : List Nat) : List Nat :=
  let len := P.length
  let header :=
    if len < 126 then [0x81, 128 + len]
    else [0x81, 128 + 126, len / 256, len % 256]
  header ++ K ++ maskBytes P K


/-! ## SHA-1, Base64 and the handshake accept key -/

/-- Bytes of an ASCII string literal. -/
def strBytes (s : String) : List Nat := s.toList.map Char.toNat

/-- 32-bit left rotation by s, as the C++ pattern (x shl s) or (x shr 32-s)
on uint32_t values. -/
def rotl32 (s x : Nat) : Nat := ((x <<< s) % 4294967296) ||| (x >>> (32 - s))

/-- SHA-1 preprocessing of ComputeSHA1Hash: append 0x80, then zero bytes
until the length is 56 mod 64, then the original bit length as eight
big-endian bytes. -/
def sha1Pad (input : List Nat) : List Nat :=
  let bitLen := input.length * 8
  let afterOne := input ++ [0x80]
  let zeros := (120 - afterOne.length % 64) % 64
  (afterOne ++ List.replicate zeros 0) ++
    (List.range 8).map (fun i => (bitLen >>> ((7 - i) * 8)) &&& 0xFF)

/-- The sixteen initial 32-bit schedule words of one 64-byte chunk. -/
def sha1W16 (chunk : List Nat) : List Nat :=
  (List.range 16).map (fun i =>
    (((chunk.getD (4 * i) 0) <<< 24) ||| ((chunk.getD (4 * i + 1) 0) <<< 16)) |||
      (((chunk.getD (4 * i + 2) 0) <<< 8) ||| (chunk.getD (4 * i + 3) 0)))

/-- Extension of the schedule to eighty words, as the C++ loop for
indices 16 to 79. -/
def sha1Extend (w16 : List Nat) : List Nat :=
  (List.range 64).foldl
    (fun w j =>
      let i := j + 16
      let temp := (((w.getD (i - 3) 0) ^^^ (w.getD (i - 8) 0)) ^^^
        (w.getD (i - 14) 0)) ^^^ (w.getD (i - 16) 0)
      w ++ [rotl32 1 temp])
    w16

/-- The four-stage round boolean function (~b is xor with 0xFFFFFFFF on a
32-bit value). -/
def sha1F (i b c d : Nat) : Nat :=
  if i < 20 then (b &&& c) ||| ((b ^^^ 0xFFFFFFFF) &&& d)
  else if i < 40 then (b ^^^ c) ^^^ d
  else if i < 60 then ((b &&& c) ||| (b &&& d)) ||| (c &&& d)
  else (b ^^^ c) ^^^ d

/-- The four-stage additive round constants. -/
def sha1K (i : Nat) : Nat :=
  if i < 20 then 0x5A827999
  else if i < 40 then 0x6ED9EBA1
  else if i < 60 then 0x8F1BBCDC
  else 0xCA62C1D6

/-- Eighty rounds over the five-word state. -/
def sha1Rounds (w : List Nat) (st : Nat × Nat × Nat × Nat × Nat) :
    Nat × Nat × Nat × Nat × Nat :=
  (List.range 80).foldl
    (fun st i =>
      let (a, b, c, d, e) := st
      let temp :=
        (rotl32 5 a + sha1F i b c d + e + sha1K i + w.getD i 0) % 4294967296
      (temp, a, rotl32 30 b, c, d))
    st

/-- One 512-bit chunk: run the rounds and add the result into the running
state words modulo 2^32. -/
def sha1ProcessChunk (h : Nat × Nat × Nat × Nat × Nat) (chunk : List Nat) :
    Nat × Nat × Nat × Nat × Nat :=
  let w := sha1Extend (sha1W16 chunk)
  let (h0, h1, h2, h3, h4) := h
  let (a, b, c, d, e) := sha1Rounds w h
  ((h0 + a) % 4294967296, (h1 + b) % 4294967296, (h2 + c) % 4294967296,
    (h3 + d) % 4294967296, (h4 + e) % 4294967296)

/-- The final serialization: each state word as four big-endian bytes. -/
def sha1Digest (h : Nat × Nat × Nat × Nat × Nat) : List Nat :=
  let (h0, h1, h2, h3, h4) := h
  ([h0, h1, h2, h3, h4].map
    (fun hw => (List.range 4).map (fun j => (hw >>> ((3 - j) * 8)) &&& 0xFF))).flatten

/-- Embedding of ComputeSHA1Hash: pad, process the 64-byte chunks in order
starting from the standard initial state, and serialize the five words. -/
def ComputeSHA1Hash (input : List Nat) : List Nat :=
  let padded := sha1Pad input
  let chunkCount := padded.length / 64
  sha1Digest ((List.range chunkCount).foldl
    (fun h chunk => sha1ProcessChunk h ((padded.drop (chunk * 64)).take 64))
    (0x67452301, 0xEFCDAB89, 0x98BADCFE, 0x10325476, 0xC3D2E1F0))

/-- The 64-symbol Base64 alphabet of EncodeBase64, as byte values. -/
def base64Chars : List Nat :=
  strBytes "ABCDEFGHIJKLMNOPQRSTUVWXYZabcdefghijklmnopqrstuvwxyz0123456789+/"

/-- Embedding of EncodeBase64: three input bytes become four alphabet
symbols; a tail of one byte yields two symbols and two padding signs
(byte 61), a tail of two bytes yields three symbols and one padding sign. -/
def EncodeBase64 : List Nat → List Nat
  | b0 :: b1 :: b2 :: rest =>
      [base64Chars.getD ((b0 &&& 0xfc) >>> 2) 0,
       base64Chars.getD (((b0 &&& 0x03) <<< 4) + ((b1 &&& 0xf0) >>> 4)) 0,
       base64Chars.getD (((b1 &&& 0x0f) <<< 2) + ((b2 &&& 0xc0) >>> 6)) 0,
       base64Chars.getD (b2 &&& 0x3f) 0] ++ EncodeBase64 rest
  | [b0, b1] =>
      [base64Chars.getD ((b0 &&& 0xfc) >>> 2) 0,
       base64Chars.getD (((b0 &&& 0x03) <<< 4) + ((b1 &&& 0xf0) >>> 4)) 0,
       base64Chars.getD ((b1 &&& 0x0f) <<< 2) 0, 61]
  | [b0] =>
      [base64Chars.getD ((b0 &&& 0xfc) >>> 2) 0,
       base64Chars.getD ((b0 &&& 0x03) <<< 4) 0, 61, 61]
  | [] => []

/-- The fixed GUID both handshake sides append to the key. -/
def magicGUID : List Nat := strBytes "258EAFA5-E914-47DA-95CA-C5AB0DC85B11"

/-- The accept key the server computes in DoHandshake of the server source:
Base64 of the SHA-1 of the key concatenated with the magic GUID. -/
def serverAcceptKey (key : List Nat) : List Nat :=
  EncodeBase64 (ComputeSHA1Hash (key ++ magicGUID))

/-- The accept key the client recomputes in DoHandshake of the client
source, compared for equality against the received header value. -/
def clientExpectedAcceptKey (key : List Nat) : List Nat :=
  EncodeBase64 (ComputeSHA1Hash (key ++ magicGUID))


/-! ## ExtractHTTPHeaderValue -/

/-- First position at which sub occurs in l, as the C++ string find:
none when sub does not occur. -/
def strFind (l sub : List Char) : Option Nat :=
  if sub.isPrefixOf l then some 0
  else
    match l with
    | [] => none
    | _ :: t => (strFind t sub).map (· + 1)

/-- First index of a character outside the given set, as find_first_not_of. -/
def findFirstNotOf (l set : List Char) : Option Nat :=
  l.findIdx? (fun c => !(set.contains c))

/-- Last index of a character outside the given set, as find_last_not_of. -/
def findLastNotOf (l set : List Char) : Option Nat :=
  (l.reverse.findIdx? (fun c => !(set.contains c))).map
    (fun i => l.length - 1 - i)

/-- The per-line body of the ExtractHTTPHeaderValue loop: when the line
contains the search string, split at the first colon of the line, trim
leading spaces and tabs and trailing spaces, CRs and LFs, and return the
substring; when the first or the last index is missing the C++ falls
through to the next line, modelled as none. The substring count
end - start + 1 is size_t arithmetic, so it wraps modulo 2^64 when the
last index lies before the first. -/
def extractFromLine (line search : List Char) : Option (List Char) :=
  if (strFind line search).isSome then
    match strFind line [':'] with
    | none => none
    | some pos =>
      let value := line.drop (pos + 1)
      match findFirstNotOf value [' ', '\t'], findLastNotOf value [' ', '\r', '\n'] with
      | some s, some e =>
          some ((value.drop s).take ((e + 18446744073709551616 - s + 1) %
            18446744073709551616))
      | _, _ => none
  else none

/-- The lines produced by getline on an istringstream: segments split on
the newline character, except that getline yields no final empty segment
when the input ends in a newline or is empty. -/
def splitOnNl (s : List Char) : List (List Char) :=
  let parts := s.splitOn '\n'
  if parts.getLast? = some [] then parts.dropLast else parts

/-- The line scan of ExtractHTTPHeaderValue: the first line for which
extractFromLine yields a value determines the result; otherwise the empty
not-found result. -/
def extractGo (lines : List (List Char)) (search : List Char) : List Char :=
  match lines with
  | [] => []
  | line :: rest =>
    match extractFromLine line search with
    | some v => v
    | none => extractGo rest search

/-- Embedding of ExtractHTTPHeaderValue: scan the getline lines for
key followed by a colon. -/
def ExtractHTTPHeaderValue (headers key : List Char) : List Char :=
  extractGo (splitOnNl headers) (key ++ [':'])


/-! ## The chat server main loop: payload handling and broadcast -/

/-- The big-endian 32-bit integer the server reads from the first four
payload bytes (memcpy followed by ntohl). -/
def be32 (l : List Nat) : Nat :=
  (((l.getD 0 0) <<< 24) ||| ((l.getD 1 0) <<< 16)) |||
    (((l.getD 2 0) <<< 8) ||| (l.getD 3 0))

/-- The chat-message handling of the server main loop, for a non-empty
decoded payload: fewer than four bytes is malformed (none); the name
length check and the split position compute 4 + nameLen in uint32_t
arithmetic, so both wrap modulo 2^32; on success the result is the
broadcast message bytes of "[" username "] " chatMsg. -/
def handleChatPayload (payload : List Nat) : Option (List Nat) :=
  if payload.length < 4 then none
  else
    let nameLen := be32 payload
    if payload.length < (4 + nameLen) % 4294967296 then none
    else
      let username := (payload.drop 4).take nameLen
      let chatMsg := payload.drop ((4 + nameLen) % 4294967296)
      some (([91] ++ username ++ [93, 32]) ++ chatMsg)

/-- The per-message broadcast of the server main loop: every socket of the
registry other than the sender receives the rebuilt TEXT frame. -/
def chatDispatch (clients : List Nat) (sender : Nat) (payload : List Nat) :
    List (Nat × List Nat) :=
  match handleChatPayload payload with
  | none => []
  | some fullMsg =>
      (clients.filter (fun dest => dest ≠ sender)).map
        (fun dest => (dest, BuildWSFrame fullMsg .TEXT))

/-- One read event for a client socket in the server main loop: a failed
receive removes the socket from the registry; otherwise the frame is
decoded, empty decode results are ignored, and non-empty payloads go
through the chat dispatch. The result is the registry after the step and
the list of (socket, frame) sends. -/
def clientReadStep (clients : List Nat) (sock : Nat)
    (recvData : Option (List Nat)) : List Nat × List (Nat × List Nat) :=
  match recvData with
  | none => (clients.erase sock, [])
  | some data =>
    let payload := ParseWSFrame data
    if payload = [] then (clients, [])
    else (clients, chatDispatch clients sock payload)


/-! ## Arithmetic and list helper lemmas -/

lemma land_255_eq_mod (x : Nat) : x &&& 0xFF = x % 256 := by
  have h : (0xFF : Nat) = 2 ^ 8 - 1 := by norm_num
  rw [h, Nat.and_pow_two_sub_one_eq_mod]

lemma land_127_eq_mod (x : Nat) : x &&& 0x7F = x % 128 := by
  have h : (0x7F : Nat) = 2 ^ 7 - 1 := by norm_num
  rw [h, Nat.and_pow_two_sub_one_eq_mod]

lemma land_128_eq_zero {x : Nat} (h : x < 128) : x &&& 0x80 = 0 := by
  have h80 : (0x80 : Nat) = 2 ^ 7 := by norm_num
  rw [h80, Nat.and_two_pow]
  have : x.testBit 7 = false := Nat.testBit_lt_two_pow (by norm_num at h ⊢; omega)
  simp [this]

lemma land_128_of_ge {x : Nat} (h1 : 128 ≤ x) (h2 : x < 256) :
    x &&& 0x80 = 128 := by
  have h80 : (0x80 : Nat) = 2 ^ 7 := by norm_num
  rw [h80, Nat.and_two_pow]
  have : x.testBit 7 = true := by
    rw [Nat.testBit_to_div_mod]
    have hx : x / 2 ^ 7 = 1 := by norm_num; omega
    norm_num at hx ⊢
    simp [hx]
  simp [this]

lemma shiftLeft8_lor_eq {b : Nat} (a : Nat) (h : b < 256) :
    (a <<< 8) ||| b = a * 256 + b := by
  have h1 : a <<< 8 = 2 ^ 8 * a := by rw [Nat.shiftLeft_eq]; ring
  rw [h1, ← Nat.mul_add_lt_is_or (by norm_num; omega) a]
  ring

lemma getD_map_range {n i : Nat} (f : Nat → Nat) (h : i < n) :
    ((List.range n).map f).getD i 0 = f i := by
  rw [List.getD_eq_getElem?_getD, List.getElem?_map, List.getElem?_range h]
  rfl

lemma map_range_getD (l : List Nat) :
    (List.range l.length).map (fun i => l.getD i 0) = l := by
  apply List.ext_getElem
  · simp
  · intro i h1 h2
    simp [List.getD_eq_getElem?_getD, List.getElem?_eq_getElem h2]

/-- Recovering a masked payload: reading the masked bytes back through the
same xor key yields the original payload. -/
lemma unmask_maskBytes (P K : List Nat) :
    (List.range P.length).map
      (fun i => ((maskBytes P K).getD i 0) ^^^ (K.getD (i % 4) 0)) = P := by
  apply List.ext_getElem
  · simp
  · intro i h1 h2
    simp only [List.getElem_map, List.getElem_range, List.length_map,
      List.length_range] at h1 ⊢
    have hlt : i < P.length := by simpa using h1
    rw [maskBytes, getD_map_range _ hlt, Nat.xor_cancel_right]
    simp [List.getD_eq_getElem?_getD, List.getElem?_eq_getElem hlt]

/-! ## C1: build/parse roundtrip and the extended length field -/

lemma parse_build_small {P : List Nat} (h : P.length < 126) :
    ParseWSFrame (BuildWSFrame P .TEXT) = P := by
  have hframe : BuildWSFrame P .TEXT = [129, P.length] ++ P := by
    unfold BuildWSFrame
    simp [WSOpcode.toNat, h]
  rw [hframe]
  unfold ParseWSFrame
  have hlen : ([129, P.length] ++ P).length = P.length + 2 := by simp
  rw [hlen]
  have hbyte2 : ([129, P.length] ++ P).getD 1 0 = P.length := by simp
  simp only [hbyte2]
  have hmask : P.length &&& 0x80 = 0 := land_128_eq_zero (by omega)
  have hcode : P.length &&& 0x7F = P.length := by
    rw [land_127_eq_mod]; omega
  rw [hmask, hcode]
  have h126 : ¬(P.length = 126) := by omega
  have h127 : ¬(P.length = 127) := by omega
  simp only [if_neg h126, if_neg h127, if_neg (by omega : ¬P.length + 2 < 2)]
  unfold wsReadPayload
  have hdrop : ([129, P.length] ++ P).drop 2 = P := by simp
  simp only [bne_self_eq_false, Bool.false_eq_true, if_false, hdrop,
    map_range_getD]
  rw [if_neg (by simp only [List.length_append, List.length_cons,
    List.length_nil]; omega)]

lemma build_ext_eq {P : List Nat} (h1 : 126 ≤ P.length)
    (h2 : P.length ≤ 65535) :
    BuildWSFrame P .TEXT =
      [129, 126, P.length / 256, P.length % 256] ++ P := by
  unfold BuildWSFrame
  simp only [WSOpcode.toNat]
  rw [if_neg (by omega), if_pos (by norm_num; omega)]
  have hhi : (P.length >>> 8) &&& 0xFF = P.length / 256 := by
    rw [Nat.shiftRight_eq_div_pow, land_255_eq_mod]
    norm_num
    omega
  have hlo : P.length &&& 0xFF = P.length % 256 := land_255_eq_mod _
  rw [hhi, hlo]
  norm_num
  decide

lemma parse_build_ext {P : List Nat} (h1 : 126 ≤ P.length)
    (h2 : P.length ≤ 65535) :
    ParseWSFrame (BuildWSFrame P .TEXT) = P := by
  rw [build_ext_eq h1 h2]
  unfold ParseWSFrame
  have hlen : ([129, 126, P.length / 256, P.length % 256] ++ P).length =
      P.length + 4 := by simp
  have hbyte2 : ([129, 126, P.length / 256, P.length % 256] ++ P).getD 1 0 =
      126 := by simp
  rw [hlen, hbyte2]
  rw [if_neg (by omega)]
  norm_num
  rw [if_pos (show (126 : Nat) &&& 127 = 126 by decide)]
  have hplen2 : ((P.length / 256) <<< 8) ||| P.length % 256 = P.length := by
    rw [shiftLeft8_lor_eq _ (Nat.mod_lt _ (by norm_num))]
    omega
  have hmask : ((126 : Nat) &&& 128 != 0) = false := by decide
  rw [hplen2, hmask]
  unfold wsReadPayload
  have hdrop : (129 :: 126 :: P.length / 256 :: P.length % 256 :: P).drop 4 =
      P := by simp
  simp only [Bool.false_eq_true, if_false, hdrop, map_range_getD]
  rw [if_neg (by simp only [List.length_cons]; omega)]

/-- C1: for every payload of at most 65535 bytes, parsing the frame built
with the TEXT opcode recovers the payload exactly; and for payloads of 126
to 65535 bytes the frame is the marker byte 126 followed by the length as a
16-bit big-endian field and the payload verbatim. -/
theorem C1_roundtrip_and_extended_length (P : List Nat)
    (hbytes : ∀ b ∈ P, b < 256) (hlen : P.length ≤ 65535) :
    ParseWSFrame (BuildWSFrame P .TEXT) = P ∧
    (126 ≤ P.length →
      BuildWSFrame P .TEXT =
        [129, 126, P.length / 256, P.length % 256] ++ P) := by
  constructor
  · by_cases h : P.length < 126
    · exact parse_build_small h
    · exact parse_build_ext (by omega) hlen
  · intro h126
    exact build_ext_eq h126 hlen

/-! ## C2: masked frames decode back to the original payload -/

lemma wsReadPayload_masked (header P K : List Nat) (pos : Nat)
    (hpos : header.length = pos) (hK : K.length = 4) :
    wsReadPayload (header ++ (K ++ maskBytes P K)) pos P.length true = P := by
  unfold wsReadPayload
  have hlen : (header ++ (K ++ maskBytes P K)).length =
      pos + 4 + P.length := by
    simp [maskBytes, hpos, hK]
    omega
  have hdroppos : (header ++ (K ++ maskBytes P K)).drop pos =
      K ++ maskBytes P K := List.drop_left' hpos
  have hkey : ((header ++ (K ++ maskBytes P K)).drop pos).take 4 = K := by
    rw [hdroppos]
    exact List.take_left' hK
  have hraw : (header ++ (K ++ maskBytes P K)).drop (pos + 4) =
      maskBytes P K := by
    rw [show pos + 4 = (header ++ K).length by simp [hpos, hK],
      ← List.append_assoc]
    exact List.drop_left _ _
  simp only [if_true]
  rw [if_neg (by omega), hkey, hraw, unmask_maskBytes]

/-- C2: for every payload of at most 65535 bytes and every four-byte mask
key, parsing a well-formed masked frame whose payload bytes are xor-ed
with the key recovers exactly the original payload. -/
theorem C2_masked_frame_roundtrip (P K : List Nat) (hP : ∀ b ∈ P, b < 256)
    (hK : ∀ b ∈ K, b < 256) (hKlen : K.length = 4)
    (hlen : P.length ≤ 65535) :
    ParseWSFrame (maskedFrame P K) = P := by
  by_cases hsmall : P.length < 126
  · have hframe : maskedFrame P K =
        [0x81, 128 + P.length] ++ (K ++ maskBytes P K) := by
      unfold maskedFrame
      simp [hsmall]
    rw [hframe]
    unfold ParseWSFrame
    have hlen2 : ([129, 128 + P.length] ++ (K ++ maskBytes P K)).length =
        2 + 4 + P.length := by
      simp [maskBytes, hKlen]
      omega
    have hbyte2 : ([129, 128 + P.length] ++ (K ++ maskBytes P K)).getD 1 0 =
        128 + P.length := by simp
    have hmask : ((128 + P.length) &&& 0x80 != 0) = true := by
      rw [land_128_of_ge (by omega) (by omega)]
      decide
    have hcode : (128 + P.length) &&& 0x7F = P.length := by
      rw [land_127_eq_mod]
      omega
    simp only [hlen2, hbyte2, hmask, hcode]
    rw [if_neg (by omega : ¬(2 + 4 + P.length < 2)),
      if_neg (by omega : ¬(P.length = 126)),
      if_neg (by omega : ¬(P.length = 127))]
    exact wsReadPayload_masked _ _ _ _ rfl hKlen
  · have hframe : maskedFrame P K =
        [0x81, 254, P.length / 256, P.length % 256] ++ (K ++ maskBytes P K) := by
      unfold maskedFrame
      simp [hsmall]
    rw [hframe]
    unfold ParseWSFrame
    have hlen2 : ([129, 254, P.length / 256, P.length % 256] ++
        (K ++ maskBytes P K)).length = 4 + 4 + P.length := by
      simp [maskBytes, hKlen]
      omega
    have hbyte2 : ([129, 254, P.length / 256, P.length % 256] ++
        (K ++ maskBytes P K)).getD 1 0 = 254 := by simp
    have hg2 : ([129, 254, P.length / 256, P.length % 256] ++
        (K ++ maskBytes P K)).getD 2 0 = P.length / 256 := by simp
    have hg3 : ([129, 254, P.length / 256, P.length % 256] ++
        (K ++ maskBytes P K)).getD 3 0 = P.length % 256 := by simp
    have hplen : ((P.length / 256) <<< 8) ||| P.length % 256 = P.length := by
      rw [shiftLeft8_lor_eq _ (Nat.mod_lt _ (by norm_num))]
      omega
    simp only [hlen2, hbyte2, hg2, hg3, hplen,
      show ((254 : Nat) &&& 127) = 126 from by decide,
      show (((254 : Nat) &&& 128 != 0)) = true from by decide]
    rw [if_pos trivial, if_neg (by omega : ¬(4 + 4 + P.length < 4)),
      if_neg (by omega : ¬(4 + 4 + P.length < 2))]
    exact wsReadPayload_masked _ _ _ _ rfl hKlen

/-- Witness for C2 at a concrete payload and mask key. -/
theorem C2_masked_frame_roundtrip_witness :
    ParseWSFrame (maskedFrame [72, 105, 33] [7, 1, 255, 3]) = [72, 105, 33] :=
  C2_masked_frame_roundtrip [72, 105, 33] [7, 1, 255, 3] (by decide)
    (by decide) (by decide) (by decide)

/-! ## C4: ParseWSFrame rejects malformed and truncated buffers -/

/-- C4: ParseWSFrame yields the empty no-message outcome on buffers of
fewer than two bytes, on length code 127, on length code 126 with fewer
than four buffer bytes, and whenever the declared payload length (plus the
four mask-key bytes when the mask bit is set) exceeds the buffer. -/
theorem C4_parse_rejects_malformed (buffer : List Nat) :
    (buffer.length < 2 → ParseWSFrame buffer = []) ∧
    (wsLenCode buffer = 127 → ParseWSFrame buffer = []) ∧
    (wsLenCode buffer = 126 → buffer.length < 4 → ParseWSFrame buffer = []) ∧
    (buffer.length < wsHeaderPos buffer +
        (if wsMaskFlag buffer then 4 else 0) + wsDeclaredLen buffer →
      ParseWSFrame buffer = []) := by
  simp only [ParseWSFrame, wsReadPayload, wsLenCode, wsHeaderPos, wsMaskFlag,
    wsDeclaredLen]
  refine ⟨fun h => ?_, fun h => ?_, fun h h4 => ?_, fun h => ?_⟩ <;>
    split_ifs at h ⊢ <;> first | rfl | omega

/-- Witness for C4 at concrete malformed buffers: a one-byte buffer, a
length code of 127, a truncated extended length, and a masked frame whose
declared length exceeds the buffer. -/
theorem C4_parse_rejects_malformed_witness :
    ParseWSFrame [129] = [] ∧ ParseWSFrame [129, 127] = [] ∧
    ParseWSFrame [129, 126, 0] = [] ∧
    ParseWSFrame [129, 130, 1, 2, 3, 4] = [] :=
  ⟨(C4_parse_rejects_malformed [129]).1 (by decide),
   (C4_parse_rejects_malformed [129, 127]).2.1 (by decide),
   (C4_parse_rejects_malformed [129, 126, 0]).2.2.1 (by decide) (by decide),
   (C4_parse_rejects_malformed [129, 130, 1, 2, 3, 4]).2.2.2 (by decide)⟩

/-! ## C9: the decode result carries no FIN or opcode metadata -/

/-- C9 counterexample: two valid frames that differ in byte 0 (FIN set with
opcode TEXT versus FIN clear with opcode CLOSE) decode to the very same
result, so the decode result carries the payload only and no frame
metadata. -/
theorem C9_counterexample :
    ParseWSFrame [0x81, 1, 65] = [65] ∧ ParseWSFrame [0x08, 1, 65] = [65] ∧
    (0x81 : Nat) ≠ 0x08 := by decide

/-- C9 amended: ParseWSFrame returns only the application payload; its
result is entirely independent of byte 0, so the FIN bit and opcode are
not made available through the decode result (the caller sees them only in
the raw buffer it already holds). -/
theorem C9_amended_parse_ignores_byte0 (b0 b0' : Nat) (rest : List Nat) :
    ParseWSFrame (b0 :: rest) = ParseWSFrame (b0' :: rest) := by
  simp only [ParseWSFrame, wsReadPayload, List.length_cons, List.getD_cons_succ,
    List.drop_succ_cons,
    show (2 : Nat) = 1 + 1 from rfl, show (4 : Nat) = 3 + 1 from rfl,
    show (1 : Nat) + 1 + 4 = 5 + 1 from rfl,
    show (3 : Nat) + 1 + 4 = 7 + 1 from rfl]

/-! ## C10: empty payloads and no-message are indistinguishable -/

/-- C10: a valid frame with an empty payload parses to the empty result,
exactly as invalid or incomplete buffers do, and the server loop ignores
every empty decode result, so valid empty-payload frames are silently
dropped. -/
theorem C10_empty_payload_indistinguishable :
    (∀ op : WSOpcode, ParseWSFrame (BuildWSFrame [] op) = []) ∧
    (∀ K : List Nat, K.length = 4 → ParseWSFrame (maskedFrame [] K) = []) ∧
    (∀ buffer : List Nat, buffer.length < 2 → ParseWSFrame buffer = []) ∧
    (∀ clients sock data, ParseWSFrame data = [] →
      clientReadStep clients sock (some data) = (clients, [])) := by
  refine ⟨fun op => ?_, fun K hK => ?_, fun buffer h => ?_,
    fun clients sock data h => ?_⟩
  · cases op <;> decide
  · obtain ⟨a, K, rfl⟩ : ∃ a t, K = a :: t := by
      cases K with
      | nil => simp at hK
      | cons a t => exact ⟨a, t, rfl⟩
    obtain ⟨b, K, rfl⟩ : ∃ b t, K = b :: t := by
      cases K with
      | nil => simp at hK
      | cons a t => exact ⟨a, t, rfl⟩
    obtain ⟨c, K, rfl⟩ : ∃ c t, K = c :: t := by
      cases K with
      | nil => simp at hK
      | cons a t => exact ⟨a, t, rfl⟩
    obtain ⟨d, K, rfl⟩ : ∃ d t, K = d :: t := by
      cases K with
      | nil => simp at hK
      | cons a t => exact ⟨a, t, rfl⟩
    obtain rfl : K = [] := by
      cases K with
      | nil => rfl
      | cons a t => simp at hK
    simp [maskedFrame, maskBytes, ParseWSFrame, wsReadPayload]
  · simp [ParseWSFrame, h]
  · simp [clientReadStep, h]

/-- Witness for C10: the canonical empty TEXT frame is treated as no
message by the server read step. -/
theorem C10_empty_payload_indistinguishable_witness :
    clientReadStep [7] 7 (some [129, 0]) = ([7], []) :=
  C10_empty_payload_indistinguishable.2.2.2 [7] 7 [129, 0] (by decide)

/-! ## C7: broadcast excludes exactly the sender -/

/-- C7: a well-formed chat message from connection A is re-framed and sent
to exactly the other connections of the registry: A never receives it,
every other registry entry receives the rebuilt TEXT frame, and nothing
else is sent. -/
theorem C7_broadcast_excludes_sender (clients : List Nat) (A : Nat)
    (payload msg : List Nat) (h : handleChatPayload payload = some msg) :
    (∀ fr, (A, fr) ∉ chatDispatch clients A payload) ∧
    (∀ d, d ∈ clients → d ≠ A →
      (d, BuildWSFrame msg .TEXT) ∈ chatDispatch clients A payload) ∧
    (∀ d fr, (d, fr) ∈ chatDispatch clients A payload →
      d ∈ clients ∧ d ≠ A ∧ fr = BuildWSFrame msg .TEXT) := by
  unfold chatDispatch
  rw [h]
  refine ⟨fun fr hmem => ?_, fun d hd hne => ?_, fun d fr hmem => ?_⟩
  · simp only [List.mem_map, List.mem_filter, Prod.mk.injEq] at hmem
    obtain ⟨x, ⟨_, hxA⟩, hxd, _⟩ := hmem
    simp only [decide_eq_true_eq] at hxA
    exact hxA (hxd ▸ rfl)
  · refine List.mem_map.mpr ⟨d, List.mem_filter.mpr ⟨hd, ?_⟩, rfl⟩
    simp [hne]
  · simp only [List.mem_map, List.mem_filter, Prod.mk.injEq] at hmem
    obtain ⟨x, ⟨hxc, hxA⟩, hxd, hxfr⟩ := hmem
    simp only [decide_eq_true_eq] at hxA
    exact ⟨hxd ▸ hxc, hxd ▸ hxA, hxfr.symm⟩

/-- Witness for C7: with registry [1, 2, 3] and sender 1, connection 2
receives the re-framed message. -/
theorem C7_broadcast_excludes_sender_witness :
    (2, BuildWSFrame [91, 65, 93, 32, 104, 105] .TEXT) ∈
      chatDispatch [1, 2, 3] 1 [0, 0, 0, 1, 65, 104, 105] :=
  (C7_broadcast_excludes_sender [1, 2, 3] 1 [0, 0, 0, 1, 65, 104, 105]
    [91, 65, 93, 32, 104, 105] (by decide)).2.1 2 (by decide) (by decide)

/-! ## C8: the malformed-payload guard wraps around in uint32_t -/

/-- C8: the name-length guard of the server loop computes 4 + nameLen in
32-bit unsigned arithmetic. For the decoded payload FF FF FF FF 41 the
declared name length 4294967295 exceeds the one remaining byte, so the
claim requires the message to be dropped, yet 4 + nameLen wraps to 3, the
guard passes, and the message is extracted and broadcast to the other
connections: the read step keeps the registry and sends a rebuilt frame to
sockets 2 and 3. -/
theorem C8_name_length_guard_wraps :
    be32 [255, 255, 255, 255, 65] = 4294967295 ∧
    (5 : Nat) < 4 + 4294967295 ∧
    handleChatPayload [255, 255, 255, 255, 65] =
      some [91, 65, 93, 32, 255, 65] ∧
    clientReadStep [1, 2, 3] 1 (some [129, 5, 255, 255, 255, 255, 65]) =
      ([1, 2, 3],
        [(2, [129, 6, 91, 65, 93, 32, 255, 65]),
         (3, [129, 6, 91, 65, 93, 32, 255, 65])]) := by decide

/-! ## C3: server and client handshake computations agree -/

/-- C3: the server-side and client-side accept-key computations are the
same function of the key, and on the RFC 6455 sample key both produce the
reference accept value, so the equality check of the client accepts the
response of the server. -/
theorem C3_handshake_accept_key_agreement :
    (∀ key : List Nat, serverAcceptKey key = clientExpectedAcceptKey key) ∧
    serverAcceptKey (strBytes "dGhlIHNhbXBsZSBub25jZQ==") =
      strBytes "s3pPLMBiTxaQ9kYGzzhZRbK+xOo=" ∧
    clientExpectedAcceptKey (strBytes "dGhlIHNhbXBsZSBub25jZQ==") =
      strBytes "s3pPLMBiTxaQ9kYGzzhZRbK+xOo=" := by
  refine ⟨fun key => rfl, by decide, by decide⟩

/-! ## C5: ComputeSHA1Hash matches the standard SHA-1 test vectors -/

/-- C5: ComputeSHA1Hash always yields a twenty-byte digest, and it yields
the standard SHA-1 digests for the empty input, for abc, and for inputs of
55, 56 and 64 bytes, whose padding straddles the block boundary. -/
theorem C5_sha1_reference_digests :
    (∀ input : List Nat, (ComputeSHA1Hash input).length = 20) ∧
    ComputeSHA1Hash (strBytes "") =
      [218, 57, 163, 238, 94, 107, 75, 13, 50, 85, 191, 239, 149, 96, 24,
       144, 175, 216, 7, 9] ∧
    ComputeSHA1Hash (strBytes "abc") =
      [169, 153, 62, 54, 71, 6, 129, 106, 186, 62, 37, 113, 120, 80, 194,
       108, 156, 208, 216, 157] ∧
    ComputeSHA1Hash (List.replicate 55 97) =
      [193, 200, 187, 220, 34, 121, 110, 40, 192, 225, 81, 99, 210, 8, 153,
       182, 86, 33, 214, 90] ∧
    ComputeSHA1Hash (List.replicate 56 97) =
      [194, 219, 51, 15, 96, 131, 133, 76, 153, 212, 181, 191, 182, 232,
       242, 159, 32, 27, 230, 153] ∧
    ComputeSHA1Hash (List.replicate 64 97) =
      [0, 152, 186, 130, 75, 92, 22, 66, 123, 215, 161, 18, 42, 90, 68, 42,
       37, 236, 100, 77] := by
  refine ⟨fun input => ?_, by decide, by decide, by decide, by decide,
    by decide⟩
  simp only [ComputeSHA1Hash]
  rcases hfold : (List.range ((sha1Pad input).length / 64)).foldl
      (fun h chunk =>
        sha1ProcessChunk h (((sha1Pad input).drop (chunk * 64)).take 64))
      (0x67452301, 0xEFCDAB89, 0x98BADCFE, 0x10325476, 0xC3D2E1F0) with
    ⟨a, b, c, d, e⟩
  simp [sha1Digest]

/-! ## C6: header extraction -/

/-- C6 counterexample: in the block built from the two lines K: (with an
all-whitespace value) and K: v, the first line containing K followed by a
colon has an unparsable all-whitespace value, so by the claim the result
would be the empty not-found value, yet ExtractHTTPHeaderValue skips that
line and returns v from the second line. -/
theorem C6_counterexample :
    ExtractHTTPHeaderValue "K: \r\nK: v\r\n".toList "K".toList = ['v'] ∧
    splitOnNl "K: \r\nK: v\r\n".toList = ["K: \r".toList, "K: v\r".toList] ∧
    (strFind "K: \r".toList ("K".toList ++ [':'])).isSome = true ∧
    findLastNotOf ("K: \r".toList.drop 2) [' ', '\r', '\n'] = none := by
  decide

/-- An index produced by findLastNotOf is inside the list. -/
lemma findLastNotOf_lt_length {l set : List Char} {e : Nat}
    (h : findLastNotOf l set = some e) : e < l.length := by
  unfold findLastNotOf at h
  rcases hf : l.reverse.findIdx? (fun c => !(set.contains c)) with _ | i
  · rw [hf] at h
    simp at h
  · rw [hf] at h
    simp at h
    cases l with
    | nil => simp at hf
    | cons a t =>
      simp only [List.length_cons] at h ⊢
      omega

/-- C6 amended: ExtractHTTPHeaderValue scans the getline lines in order and
never throws. A line yields a value only if it contains fieldName plus a
colon as a case-sensitive substring and the text after the first colon of
the line has both a character outside space and tab and a character
outside space, CR and LF; the first line that yields a value determines
the result and lines yielding none are skipped. In the normal case, where
the first non-space/tab character lies at or before the last
non-space/CR/LF character, the value is the text between those two
positions inclusive: leading spaces and tabs and trailing spaces, CRs and
LFs trimmed, a trailing tab kept. Otherwise a size_t-wrapped substr count
makes the line yield an anomalous value, an empty result when the wrapped
count is zero, so an all-whitespace-plus-tab value can stop the search
with the empty result even though a later line matches. The empty
not-found result also comes back when the field is absent or the block is
empty. -/
theorem C6_amended_header_extraction :
    (∀ headers key : List Char,
      (∀ line ∈ splitOnNl headers, strFind line (key ++ [':']) = none) →
      ExtractHTTPHeaderValue headers key = []) ∧
    (∀ headers key pre line post v,
      splitOnNl headers = pre ++ line :: post →
      (∀ l ∈ pre, extractFromLine l (key ++ [':']) = none) →
      extractFromLine line (key ++ [':']) = some v →
      ExtractHTTPHeaderValue headers key = v) ∧
    (∀ line search : List Char, strFind line search = none →
      extractFromLine line search = none) ∧
    (∀ (line search : List Char) (pos : Nat),
      strFind line [':'] = some pos →
      (findFirstNotOf (line.drop (pos + 1)) [' ', '\t'] = none ∨
        findLastNotOf (line.drop (pos + 1)) [' ', '\r', '\n'] = none) →
      extractFromLine line search = none) ∧
    (∀ (line search : List Char) (pos s e : Nat),
      (strFind line search).isSome = true →
      strFind line [':'] = some pos →
      findFirstNotOf (line.drop (pos + 1)) [' ', '\t'] = some s →
      findLastNotOf (line.drop (pos + 1)) [' ', '\r', '\n'] = some e →
      s ≤ e →
      line.length < 18446744073709551616 →
      extractFromLine line search =
        some (((line.drop (pos + 1)).drop s).take (e - s + 1))) ∧
    (ExtractHTTPHeaderValue "Sec-WebSocket-Key:   abc  \r\n".toList
        "Sec-WebSocket-Key".toList = "abc".toList ∧
      ExtractHTTPHeaderValue "k: v\r\n".toList "K".toList = [] ∧
      ExtractHTTPHeaderValue "K: v\t\r\n".toList "K".toList = "v\t".toList ∧
      ExtractHTTPHeaderValue "A: \r\nA: w\r\n".toList "A".toList = ['w'] ∧
      ExtractHTTPHeaderValue "K: \t\nK: v\r\n".toList "K".toList = ['v'] ∧
      ExtractHTTPHeaderValue "K: \t\r\nK: v\r\n".toList "K".toList = []) := by
  refine ⟨fun headers key h => ?_, fun headers key pre line post v hsplit
    hpre hline => ?_, fun line search h => ?_,
    fun line search pos hpos hdisj => ?_,
    fun line search pos s e hsome hpos hf hl hse hlen => ?_, by decide⟩
  · unfold ExtractHTTPHeaderValue
    revert h
    generalize splitOnNl headers = lines
    intro h
    induction lines with
    | nil => rfl
    | cons line rest ih =>
      have h1 : strFind line (key ++ [':']) = none := h line (by simp)
      unfold extractGo
      rw [show extractFromLine line (key ++ [':']) = none by
        unfold extractFromLine
        rw [h1]
        rfl]
      exact ih (fun l hl => h l (by simp [hl]))
  · unfold ExtractHTTPHeaderValue
    rw [hsplit]
    clear hsplit
    revert hpre
    induction pre with
    | nil =>
      intro _
      simp only [List.nil_append]
      unfold extractGo
      rw [hline]
    | cons p rest ih =>
      intro hpre
      simp only [List.cons_append]
      unfold extractGo
      rw [hpre p (by simp)]
      exact ih (fun l hl => hpre l (by simp [hl]))
  · unfold extractFromLine
    rw [h]
    rfl
  · unfold extractFromLine
    by_cases hs : (strFind line search).isSome = true
    · rw [if_pos hs]
      rcases hf : findFirstNotOf (line.drop (pos + 1)) [' ', '\t'] with _ | s
      · simp only [hpos, hf]
      · rcases hl : findLastNotOf (line.drop (pos + 1)) [' ', '\r', '\n']
          with _ | e
        · simp only [hpos, hf, hl]
        · rcases hdisj with h | h
          · rw [h] at hf
            exact absurd hf (by simp)
          · rw [h] at hl
            exact absurd hl (by simp)
    · rw [if_neg hs]
  · have he : e < (line.drop (pos + 1)).length := findLastNotOf_lt_length hl
    have he2 : e < line.length := by
      have hd : (line.drop (pos + 1)).length ≤ line.length := by
        simp [List.length_drop]
      omega
    have hcount : (e + 18446744073709551616 - s + 1) % 18446744073709551616 =
        e - s + 1 := by omega
    unfold extractFromLine
    rw [if_pos hsome]
    simp only [hpos, hf, hl, hcount]

/-- Witness for C6: in a two-line block whose first line lacks the field,
the second line yields the value. -/
theorem C6_amended_header_extraction_witness :
    ExtractHTTPHeaderValue "Host: x\r\nK: hi\r\n".toList "K".toList =
      "hi".toList :=
  C6_amended_header_extraction.2.1 "Host: x\r\nK: hi\r\n".toList "K".toList
    ["Host: x\r".toList] "K: hi\r".toList [] "hi".toList (by decide)
    (by decide) (by decide)

/-- Witness for C1 at a concrete 130-byte payload. -/
theorem C1_roundtrip_and_extended_length_witness :
    ParseWSFrame (BuildWSFrame (List.replicate 130 97) .TEXT) =
      List.replicate 130 97 ∧
    BuildWSFrame (List.replicate 130 97) .TEXT =
      [129, 126, 0, 130] ++ List.replicate 130 97 := by
  have h := C1_roundtrip_and_extended_length (List.replicate 130 97)
    (by decide) (by decide)
  refine ⟨h.1, ?_⟩
  have h2 := h.2 (by decide)
  simpa using h2
